import Mathlib

/-!
Verification development for the `e2e-demo` edge-agent repository.

Two components are embedded from the source:

* `src/model_router.py` — the `ModelRouter` class (local/cloud mode switching
  with a connectivity-gated, lazily constructed Bedrock handle).  The
  connectivity probe (`_check_connectivity`, a socket call) is an external
  effect; it is passed to `set_mode` as an explicit boolean outcome.

* `src/tools/scada_extraction_tools.py` together with
  `src/models/scada_models.py` — the SCADA report extractor.  The Python code
  drives `re.search` / `re.finditer` with the `re.IGNORECASE` flag over a fixed
  set of regular expressions.  We embed the exact regex fragment those patterns
  use (case-insensitive literals, single-character classes with greedy/lazy
  `+`, `*`, `?` quantifiers, non-capturing optional groups, capture groups over
  class/literal sequences, and a trailing `(?:\n|$)`) as a small backtracking
  matcher over `List Char`.  Non-capturing optional groups `(?:...)?` are
  expanded into explicit alternatives listed in Python's backtracking priority
  order (option-present before option-absent, earlier options dominating), so
  every matcher definition is structurally recursive and kernel-computable.
  Character classes follow their ASCII meaning (the reports in scope are
  ASCII).
-/

namespace EdgeAgents

set_option maxRecDepth 65536

/- ===================== Python string / regex primitives ===================== -/

/-- Python `\s` (ASCII): space, tab, newline, carriage return, form feed, vertical tab. -/
def pySpace (c : Char) : Bool :=
  c = ' ' || c = '\t' || c = '\n' || c = '\r' || c = '\x0b' || c = '\x0c'

/-- Python `\d` (ASCII): decimal digits. -/
def pyDigit (c : Char) : Bool := c.isDigit

/-- Python `\w` (ASCII): letters, digits, underscore. -/
def pyWord (c : Char) : Bool := c.isAlpha || c.isDigit || c = '_'

/-- The class `[A-Za-z0-9_-]` used for identifiers. -/
def pyIdChar (c : Char) : Bool := c.isAlpha || c.isDigit || c = '_' || c = '-'

/-- The class `[:\s]`. -/
def pyColonSpace (c : Char) : Bool := c = ':' || pySpace c

/-- The class `[^(]`. -/
def pyNotLParen (c : Char) : Bool := !(c = '(')

/-- Python `\S`. -/
def pyNonSpace (c : Char) : Bool := !(pySpace c)

/-- Python `.` (without DOTALL): any character except newline. -/
def pyDot (c : Char) : Bool := !(c = '\n')

/-- The class `[-–]` (hyphen or en dash). -/
def dashClass (c : Char) : Bool := c = '-' || c = '–'

/-- The class `[-–:]`. -/
def dashColonClass (c : Char) : Bool := c = '-' || c = '–' || c = ':'

/-- The class `[=:]`. -/
def eqColonClass (c : Char) : Bool := c = '=' || c = ':'

/-- The class for a literal `%` (used for the optional trailing `%?`). -/
def pctClass (c : Char) : Bool := c = '%'

/-- The escaped literal `\.` (IGNORECASE does not affect punctuation). -/
def dotChar (c : Char) : Bool := c = '.'

/-- Python `str.strip()` on a character list: drop leading and trailing whitespace. -/
def pyStripL (l : List Char) : List Char :=
  ((l.dropWhile pySpace).reverse.dropWhile pySpace).reverse

/-- Python `str.strip()`. -/
def pyStrip (s : String) : String := String.mk (pyStripL s.data)

/-- Python `str.lower()` (ASCII). -/
def pyLower (s : String) : String := String.mk (s.data.map Char.toLower)

/-- Numeric value of a digit list (most significant first). -/
def digitsVal (l : List Char) : Nat :=
  l.foldl (fun a c => a * 10 + (c.toNat - '0'.toNat)) 0

/-- Optional sign and nonempty digit string (the stripped input of
Python's `int`).  (Underscore digit separators, never produced by the
extractor's `(\d+)` captures, are not modelled.) -/
def pyIntAux : List Char → Option Int
  | [] => none
  | c :: rest =>
      if c = '-' then
        if rest ≠ [] ∧ rest.all pyDigit then some (-(digitsVal rest : Int)) else none
      else if c = '+' then
        if rest ≠ [] ∧ rest.all pyDigit then some ((digitsVal rest : Int)) else none
      else
        if (c :: rest).all pyDigit then some ((digitsVal (c :: rest) : Int)) else none

/-- Python `int(s)`: strip whitespace, optional sign, then a nonempty digit
string.  `none` models a raised `ValueError`. -/
def pyInt (s : String) : Option Int := pyIntAux (pyStripL s.data)

/-- Value of an integer part / fraction split: `digits`, `digits.`,
`.digits` or `digits.digits`. -/
def pyFloatFrom : List Char → List Char → Option ℚ
  | ip, [] => if ip ≠ [] then some ((digitsVal ip : ℚ)) else none
  | ip, c :: fr =>
      if c = '.' then
        if fr.all pyDigit ∧ (ip ≠ [] ∨ fr ≠ []) then
          some ((digitsVal ip : ℚ) + (digitsVal fr : ℚ) / ((10 : ℚ) ^ fr.length))
        else none
      else none

/-- Magnitude part of Python `float(s)` (exponents, `inf` and `nan` are never
produced by the extractor's captures and are not modelled). -/
def pyFloatMag (l : List Char) : Option ℚ :=
  pyFloatFrom (l.takeWhile pyDigit) (l.dropWhile pyDigit)

/-- Optional sign and magnitude (the stripped input of Python's `float`). -/
def pyFloatAux : List Char → Option ℚ
  | [] => pyFloatMag []
  | c :: rest =>
      if c = '-' then (pyFloatMag rest).map (fun q => -q)
      else if c = '+' then pyFloatMag rest
      else pyFloatMag (c :: rest)

/-- Python `float(s)`: strip whitespace, optional sign, magnitude.
`none` models a raised `ValueError`. -/
def pyFloat (s : String) : Option ℚ := pyFloatAux (pyStripL s.data)

/- ===================== The regex fragment ===================== -/

/-- Quantifier on a single-character class. -/
inductive Quant where
  | one | opt | star | plus
deriving Repr

/-- Group-body piece: capture groups in the source patterns contain only
case-insensitive literals and quantified single-character classes. -/
inductive GP where
  | glit (l : List Char)
  | gcls (f : Char → Bool) (q : Quant) (lazyQ : Bool)

/-- Top-level pattern piece.  `eol` is the trailing `(?:\n|$)` alternation. -/
inductive SP where
  | lit (l : List Char)
  | cls (f : Char → Bool) (q : Quant) (lazyQ : Bool)
  | grp (body : List GP)
  | eol

/-- Length of the maximal prefix of `cs` whose characters satisfy `f`. -/
def maxRun (f : Char → Bool) : List Char → Nat
  | [] => 0
  | c :: cs => if f c then maxRun f cs + 1 else 0

/-- The consumption lengths a quantified class may take, in backtracking
priority order (greedy: longest first; lazy: shortest first), given the
maximal run length `m` at the current position. -/
def clsCounts (q : Quant) (lazyQ : Bool) (m : Nat) : List Nat :=
  match q with
  | .one => if m = 0 then [] else [1]
  | .opt => if m = 0 then [0] else if lazyQ then [0, 1] else [1, 0]
  | .plus =>
      if lazyQ then (List.range m).map (· + 1)
      else (List.range m).map (fun i => m - i)
  | .star =>
      if lazyQ then List.range (m + 1)
      else (List.range (m + 1)).map (fun i => m - i)

/-- All ways a group body can match a prefix of `cs`, in backtracking priority
order; each result is `(consumed characters, remaining input)`. -/
def matchBody : List GP → List Char → List (List Char × List Char)
  | [], cs => [([], cs)]
  | .glit l :: ps, cs =>
      if (cs.take l.length).map Char.toLower = l then
        (matchBody ps (cs.drop l.length)).map (fun pr => (cs.take l.length ++ pr.1, pr.2))
      else []
  | .gcls f q lz :: ps, cs =>
      (clsCounts q lz (maxRun f cs)).flatMap (fun n =>
        (matchBody ps (cs.drop n)).map (fun pr => (cs.take n ++ pr.1, pr.2)))

/-- All matches of a piece sequence against a prefix of `cs`, in backtracking
priority order.  `acc` holds the captures seen so far (in reverse); each
result is `(captures in order, remaining input)`. -/
def matchSP : List SP → List Char → List (List Char) → List (List (List Char) × List Char)
  | [], cs, acc => [(acc.reverse, cs)]
  | .lit l :: ps, cs, acc =>
      if (cs.take l.length).map Char.toLower = l then
        matchSP ps (cs.drop l.length) acc
      else []
  | .cls f q lz :: ps, cs, acc =>
      (clsCounts q lz (maxRun f cs)).flatMap (fun n => matchSP ps (cs.drop n) acc)
  | .grp body :: ps, cs, acc =>
      (matchBody body cs).flatMap (fun pr => matchSP ps pr.2 (pr.1 :: acc))
  | .eol :: ps, cs, acc =>
      match cs with
      | [] => matchSP ps [] acc
      | c :: rest => if c = '\n' then matchSP ps rest acc else []

/-- Try the pattern's alternatives (expanded optional groups) in priority
order at the current position; return the first match's captures and the
remaining input. -/
def tryAlts : List (List SP) → List Char → Option (List (List Char) × List Char)
  | [], _ => none
  | alt :: alts, cs =>
      match (matchSP alt cs []).head? with
      | some pr => some pr
      | none => tryAlts alts cs

/-- Python `re.search`: leftmost match wins; at a given position the
backtracking priority order decides. -/
def reSearch (alts : List (List SP)) : List Char → Option (List (List Char) × List Char)
  | [] => tryAlts alts []
  | c :: cs =>
      match tryAlts alts (c :: cs) with
      | some pr => some pr
      | none => reSearch alts cs

/-- Python `re.finditer` driver: repeatedly `re.search`, resuming after each
match's end.  The fuel bounds the iteration count; every pattern in scope
consumes at least one character per match, so `length + 1` fuel is exact. -/
def find_iter_go (alts : List (List SP)) : Nat → List Char → List (List (List Char))
  | 0, _ => []
  | Nat.succ n, cs =>
      match reSearch alts cs with
      | none => []
      | some pr => pr.1 :: find_iter_go alts n pr.2

/-- Python `re.finditer`: the capture lists of all non-overlapping matches,
left to right. -/
def find_iter (alts : List (List SP)) (cs : List Char) : List (List (List Char)) :=
  find_iter_go alts (cs.length + 1) cs

/-- The capture-group bodies of a piece sequence, in order. -/
def groupBodies : List SP → List (List GP)
  | [] => []
  | .grp body :: ps => body :: groupBodies ps
  | .lit _ :: ps => groupBodies ps
  | .cls _ _ _ :: ps => groupBodies ps
  | .eol :: ps => groupBodies ps

/-- `cap` is a string the group body can consume (at some input). -/
def BodyConsumes (body : List GP) (cap : List Char) : Prop :=
  ∃ cs pr, pr ∈ matchBody body cs ∧ cap = pr.1

/- ===================== The source's patterns ===================== -/

/-- A case-insensitive literal (stored lowercase, as Python's IGNORECASE
comparison is modelled by lowercasing the input). -/
def litL (s : String) : SP := .lit s.data

def wsPlus : SP := .cls pySpace .plus false
def wsStar : SP := .cls pySpace .star false
def colonWsPlus : SP := .cls pyColonSpace .plus false
/-- The body of the capture `([A-Za-z0-9_-]+)`. -/
def idBody : List GP := [.gcls pyIdChar .plus false]
/-- The body of the capture `(\w+)`. -/
def wordBody : List GP := [.gcls pyWord .plus false]
/-- The body of the capture `(\d+)` (also `(\d+(?:\.\d+)?)` with the fraction absent). -/
def digitBody : List GP := [.gcls pyDigit .plus false]
/-- The body of the capture `(\d+(?:\.\d+)?)` with the fraction present. -/
def floatBody : List GP :=
  [.gcls pyDigit .plus false, .gcls dotChar .one false, .gcls pyDigit .plus false]
/-- The body of the capture `([^(]+)`. -/
def notParenBody : List GP := [.gcls pyNotLParen .plus false]
/-- The body of the capture `(\S+)`. -/
def nonSpaceBody : List GP := [.gcls pyNonSpace .plus false]
/-- The body of the lazy capture `(.+?)`. -/
def dotBody : List GP := [.gcls pyDot .plus true]

def grpId : SP := .grp idBody
def grpWord : SP := .grp wordBody
def grpDigits : SP := .grp digitBody
def grpFloatFrac : SP := .grp floatBody

/-- `(?:Production\s+)?Line(?:\s+ID)?[:\s]+([A-Za-z0-9_-]+)` (optional groups
expanded, option-present first, earlier option dominant). -/
def line_pat1 : List (List SP) :=
  [ [litL "production", wsPlus, litL "line", wsPlus, litL "id", colonWsPlus, grpId],
    [litL "production", wsPlus, litL "line", colonWsPlus, grpId],
    [litL "line", wsPlus, litL "id", colonWsPlus, grpId],
    [litL "line", colonWsPlus, grpId] ]

/-- `line_id[:\s]+([A-Za-z0-9_-]+)` -/
def line_pat2 : List (List SP) := [[litL "line_id", colonWsPlus, grpId]]

def line_id_patterns : List (List (List SP)) := [line_pat1, line_pat2]

/-- `Shift[:\s]+(\w+)` -/
def shift_pat : List (List SP) := [[litL "shift", colonWsPlus, grpWord]]

/-- The source lists `Shift[:\s]+(\w+)` and `shift[:\s]+(\w+)`; under
IGNORECASE both denote the same matcher. -/
def shift_patterns : List (List (List SP)) := [shift_pat, shift_pat]

/-- `Units\s+Produced[:\s]+(\d+)` -/
def up_pat1 : List (List SP) := [[litL "units", wsPlus, litL "produced", colonWsPlus, grpDigits]]
/-- `Produced[:\s]+(\d+)` -/
def up_pat2 : List (List SP) := [[litL "produced", colonWsPlus, grpDigits]]
/-- `units_produced[:\s]+(\d+)` -/
def up_pat3 : List (List SP) := [[litL "units_produced", colonWsPlus, grpDigits]]

def units_produced_patterns : List (List (List SP)) := [up_pat1, up_pat2, up_pat3]

/-- `(?:Units\s+)?Target[:\s]+(\d+)` -/
def ut_pat1 : List (List SP) :=
  [ [litL "units", wsPlus, litL "target", colonWsPlus, grpDigits],
    [litL "target", colonWsPlus, grpDigits] ]
/-- `units_target[:\s]+(\d+)` -/
def ut_pat2 : List (List SP) := [[litL "units_target", colonWsPlus, grpDigits]]

def units_target_patterns : List (List (List SP)) := [ut_pat1, ut_pat2]

/-- `Efficiency(?:\s+Percent)?[:\s]+(\d+(?:\.\d+)?)\s*%?` -/
def eff_pat1 : List (List SP) :=
  [ [litL "efficiency", wsPlus, litL "percent", colonWsPlus, grpFloatFrac, wsStar, .cls pctClass .opt false],
    [litL "efficiency", wsPlus, litL "percent", colonWsPlus, grpDigits, wsStar, .cls pctClass .opt false],
    [litL "efficiency", colonWsPlus, grpFloatFrac, wsStar, .cls pctClass .opt false],
    [litL "efficiency", colonWsPlus, grpDigits, wsStar, .cls pctClass .opt false] ]

/-- `efficiency_percent[:\s]+(\d+(?:\.\d+)?)` -/
def eff_pat2 : List (List SP) :=
  [ [litL "efficiency_percent", colonWsPlus, grpFloatFrac],
    [litL "efficiency_percent", colonWsPlus, grpDigits] ]

/-- `efficiency[:\s]+(\d+(?:\.\d+)?)` -/
def eff_pat3 : List (List SP) :=
  [ [litL "efficiency", colonWsPlus, grpFloatFrac],
    [litL "efficiency", colonWsPlus, grpDigits] ]

def efficiency_patterns : List (List (List SP)) := [eff_pat1, eff_pat2, eff_pat3]

/-- `Equipment[:\s]+([A-Za-z0-9_-]+)\s*[-–]\s*([^(]+)\s*\((\w+)\)` -/
def equipment_pattern : List (List SP) :=
  [ [litL "equipment", colonWsPlus, grpId, wsStar, .cls dashClass .one false, wsStar,
     .grp notParenBody, wsStar, litL "(", grpWord, litL ")"] ]

/-- `Sensor[:\s]+([A-Za-z0-9_-]+)\s*[=:]\s*(\d+(?:\.\d+)?)\s*(\S+)` -/
def sensor_pattern : List (List SP) :=
  [ [litL "sensor", colonWsPlus, grpId, wsStar, .cls eqColonClass .one false, wsStar,
     grpFloatFrac, wsStar, .grp nonSpaceBody],
    [litL "sensor", colonWsPlus, grpId, wsStar, .cls eqColonClass .one false, wsStar,
     grpDigits, wsStar, .grp nonSpaceBody] ]

/-- `Alarm[:\s]+([A-Za-z0-9_-]+)\s*\((\w+)\)\s*[-–:]\s*(.+?)(?:\n|$)` -/
def alarm_pattern : List (List SP) :=
  [ [litL "alarm", colonWsPlus, grpId, wsStar, litL "(", grpWord, litL ")", wsStar,
     .cls dashColonClass .one false, wsStar, .grp dotBody, .eol] ]

/- ===================== Data model (scada_models.py) ===================== -/

/-- `SensorReading` (pydantic): `sensor_id` and `unit` must be nonempty. -/
structure SensorReading where
  sensor_id : String
  value : ℚ
  unit : String
  timestamp : Option String
deriving DecidableEq, Repr

/-- `AlarmInfo` (pydantic): nonempty `alarm_id` and `message`, severity a
literal, `acknowledged` defaulting to `false`. -/
structure AlarmInfo where
  alarm_id : String
  severity : String
  message : String
  acknowledged : Bool
deriving DecidableEq, Repr

/-- `EquipmentStatus` (pydantic): nonempty `equipment_id` and `name`, status a
literal, plus validated readings and alarms. -/
structure EquipmentStatus where
  equipment_id : String
  name : String
  status : String
  readings : List SensorReading
  active_alarms : List AlarmInfo
deriving DecidableEq, Repr

/-- `ProductionMetrics` (pydantic): the five required scalar fields plus the
optional equipment list. -/
structure ProductionMetrics where
  line_id : String
  shift : String
  units_produced : Int
  units_target : Int
  efficiency_percent : ℚ
  equipment : List EquipmentStatus
deriving DecidableEq, Repr

def valid_statuses : List String := ["running", "stopped", "maintenance", "fault"]

def valid_severities : List String := ["low", "medium", "high", "critical"]

/-- Pydantic validation of `SensorReading` (min_length 1 on `sensor_id` and
`unit`); `none` models a `ValidationError`. -/
def validateSensorReading (sensor_id : String) (value : ℚ) (unit : String) :
    Option SensorReading :=
  if sensor_id.length ≥ 1 ∧ unit.length ≥ 1 then
    some ⟨sensor_id, value, unit, none⟩
  else none

/-- Pydantic validation of `AlarmInfo` (min_length 1 on `alarm_id` and
`message`, severity literal); `none` models a `ValidationError`. -/
def validateAlarmInfo (alarm_id : String) (severity : String) (message : String) :
    Option AlarmInfo :=
  if alarm_id.length ≥ 1 ∧ severity ∈ valid_severities ∧ message.length ≥ 1 then
    some ⟨alarm_id, severity, message, false⟩
  else none

/-- Pydantic validation of `EquipmentStatus` (min_length 1 on `equipment_id`
and `name`, status literal); `none` models a `ValidationError`. -/
def validateEquipmentStatus (equipment_id : String) (name : String) (status : String)
    (readings : List SensorReading) (active_alarms : List AlarmInfo) :
    Option EquipmentStatus :=
  if equipment_id.length ≥ 1 ∧ name.length ≥ 1 ∧ status ∈ valid_statuses then
    some ⟨equipment_id, name, status, readings, active_alarms⟩
  else none

/-- The required-field errors pydantic collects for `ProductionMetrics`, in
declaration order: `line_id`/`shift` need min_length 1, the two unit counts
need `ge=0`, `efficiency_percent` needs `ge=0.0`.  All offending fields are
collected in one pass. -/
def pmErrors (line_id shift : String) (units_produced units_target : Int)
    (efficiency_percent : ℚ) : List String :=
  (if line_id.length ≥ 1 then [] else ["line_id"]) ++
  (if shift.length ≥ 1 then [] else ["shift"]) ++
  (if units_produced ≥ 0 then [] else ["units_produced"]) ++
  (if units_target ≥ 0 then [] else ["units_target"]) ++
  (if efficiency_percent ≥ 0 then [] else ["efficiency_percent"])

/-- Pydantic construction of `ProductionMetrics`: returns the record, or the
full list of offending fields. -/
def validateProductionMetrics (line_id shift : String) (units_produced units_target : Int)
    (efficiency_percent : ℚ) (equipment : List EquipmentStatus) :
    Except (List String) ProductionMetrics :=
  match pmErrors line_id shift units_produced units_target efficiency_percent with
  | [] => .ok ⟨line_id, shift, units_produced, units_target, efficiency_percent, equipment⟩
  | errs => .error errs

/- ===================== scada_extraction_tools.py ===================== -/

/-- `_extract_field`: try the patterns in order; the first whose `re.search`
matches wins, returning `match.group(1).strip()`; `none` models the raised
`ExtractionError`. -/
def extract_field (text : List Char) : List (List (List SP)) → Option String
  | [] => none
  | pat :: pats =>
      match reSearch pat text with
      | some pr => some (pyStrip (String.mk (pr.1.getD 0 [])))
      | none => extract_field text pats

/-- `_extract_sensor_readings`: scans the whole `text` with the sensor
pattern; the `equipment_id` argument is accepted but (as in the source) never
used.  Entries failing `SensorReading` validation are dropped.  The `float`
conversion of group 2 cannot fail (the capture is digits, or digits dot
digits); its `Option` is defaulted accordingly. -/
def extract_sensor_readings (text : List Char) (equipment_id : String) : List SensorReading :=
  (find_iter sensor_pattern text).filterMap (fun caps =>
    let sensor_id := pyStrip (String.mk (caps.getD 0 []))
    let value := (pyFloat (String.mk (caps.getD 1 []))).getD 0
    let unit := pyStrip (String.mk (caps.getD 2 []))
    validateSensorReading sensor_id value unit)

/-- `_extract_alarms`: scans the whole `text` with the alarm pattern; the
`equipment_id` argument is accepted but (as in the source) never used.
Unrecognized severities are skipped, and entries failing `AlarmInfo`
validation are dropped. -/
def extract_alarms (text : List Char) (equipment_id : String) : List AlarmInfo :=
  (find_iter alarm_pattern text).filterMap (fun caps =>
    let alarm_id := pyStrip (String.mk (caps.getD 0 []))
    let severity := pyLower (pyStrip (String.mk (caps.getD 1 [])))
    let message := pyStrip (String.mk (caps.getD 2 []))
    if severity ∈ valid_severities then
      validateAlarmInfo alarm_id severity message
    else none)

/-- `_extract_equipment_status`: scan for equipment blocks; skip blocks whose
status keyword is unrecognized; attach the document-wide sensor readings and
alarms; drop entries failing `EquipmentStatus` validation. -/
def extract_equipment_status (text : List Char) : List EquipmentStatus :=
  (find_iter equipment_pattern text).filterMap (fun caps =>
    let equipment_id := pyStrip (String.mk (caps.getD 0 []))
    let name := pyStrip (String.mk (caps.getD 1 []))
    let status := pyLower (pyStrip (String.mk (caps.getD 2 [])))
    if status ∈ valid_statuses then
      validateEquipmentStatus equipment_id name status
        (extract_sensor_readings text equipment_id)
        (extract_alarms text equipment_id)
    else none)

/-- Outcome of `extract_scada_metrics`, abstracting the formatted strings the
tool returns: the empty-input rejection, a raised `ExtractionError` naming the
missing field, a `ValueError` escaping from `int()`/`float()` (caught by the
generic handler), a pydantic `ValidationError` listing the offending fields,
or the successfully extracted record. -/
inductive ScadaOutcome where
  | emptyInput
  | missingField (field : String)
  | convError
  | validationFailure (fields : List String)
  | ok (m : ProductionMetrics)
deriving DecidableEq, Repr

/-- `_parse_scada_report` (with the exception-to-result translation done by
`extract_scada_metrics`): strip the text, extract the five required fields in
order — each a fatal `missingField` on failure — convert the numeric ones,
extract the optional equipment, and validate the record. -/
def parse_scada_report (report_text : String) : ScadaOutcome :=
  let text := pyStripL report_text.data
  match extract_field text line_id_patterns with
  | none => .missingField "line_id"
  | some line_id =>
  match extract_field text shift_patterns with
  | none => .missingField "shift"
  | some shift =>
  match extract_field text units_produced_patterns with
  | none => .missingField "units_produced"
  | some units_produced_str =>
  match pyInt units_produced_str with
  | none => .convError
  | some units_produced =>
  match extract_field text units_target_patterns with
  | none => .missingField "units_target"
  | some units_target_str =>
  match pyInt units_target_str with
  | none => .convError
  | some units_target =>
  match extract_field text efficiency_patterns with
  | none => .missingField "efficiency_percent"
  | some efficiency_str =>
  match pyFloat efficiency_str with
  | none => .convError
  | some efficiency_percent =>
  let equipment := extract_equipment_status text
  match validateProductionMetrics line_id shift units_produced units_target
      efficiency_percent equipment with
  | .error errs => .validationFailure errs
  | .ok m => .ok m

/-- `extract_scada_metrics`: reject empty or whitespace-only input before any
pattern is tried, then parse. -/
def extract_scada_metrics (report_text : String) : ScadaOutcome :=
  if report_text = "" ∨ pyStrip report_text = "" then .emptyInput
  else parse_scada_report report_text

/- ===================== model_router.py ===================== -/

/-- The local Ollama model handle, built eagerly in `__init__`. -/
structure OllamaModel where
  host : String
  model_id : String
  temperature : Option ℚ
  keep_alive : String
deriving DecidableEq, Repr

/-- The cloud Bedrock model handle, built lazily by `_get_bedrock_model`. -/
structure BedrockModel where
  model_id : String
  region_name : String
deriving DecidableEq, Repr

/-- The `ollama_config` dict (each key optional, with the defaults used in
`__init__`). -/
structure OllamaConfig where
  host : Option String
  model_id : Option String
  temperature : Option ℚ
  keep_alive : Option String
deriving DecidableEq, Repr

/-- The `bedrock_config` dict (each key optional, with the defaults used in
`_get_bedrock_model`). -/
structure BedrockConfig where
  model_id : Option String
  region_name : Option String
deriving DecidableEq, Repr

/-- The state of a `ModelRouter` instance.  `current_mode` is the Python
string `"local"` or `"cloud"`. -/
structure ModelRouter where
  ollama_model : OllamaModel
  bedrock_config : BedrockConfig
  bedrock_model : Option BedrockModel
  current_mode : String
deriving DecidableEq, Repr

/-- `BedrockModel(...)` construction with the config defaults. -/
def mkBedrockModel (cfg : BedrockConfig) : BedrockModel :=
  { model_id := cfg.model_id.getD "anthropic.claude-3-sonnet-20240229-v1:0",
    region_name := cfg.region_name.getD "us-east-1" }

/-- `ModelRouter.__init__`: eager Ollama handle, stored Bedrock config, no
Bedrock handle yet, local mode by default. -/
def initRouter (oc : OllamaConfig) (bc : BedrockConfig) : ModelRouter :=
  { ollama_model :=
      { host := oc.host.getD "http://localhost:11434",
        model_id := oc.model_id.getD "llama3.1",
        temperature := oc.temperature,
        keep_alive := oc.keep_alive.getD "10m" },
    bedrock_config := bc,
    bedrock_model := none,
    current_mode := "local" }

/-- `ModelRouter._get_bedrock_model`: return the cached handle, constructing
and caching it on first use. -/
def get_bedrock_model (r : ModelRouter) : BedrockModel × ModelRouter :=
  match r.bedrock_model with
  | some b => (b, r)
  | none =>
      let b := mkBedrockModel r.bedrock_config
      (b, { r with bedrock_model := some b })

/-- The value `ModelRouter.get_model` returns. -/
inductive ActiveModel where
  | ollama (m : OllamaModel)
  | bedrock (m : BedrockModel)
deriving DecidableEq, Repr

/-- `ModelRouter.get_model`: the Ollama handle in local mode, otherwise the
(lazily constructed) Bedrock handle. -/
def get_model (r : ModelRouter) : ActiveModel × ModelRouter :=
  if r.current_mode = "local" then (.ollama r.ollama_model, r)
  else
    let pr := get_bedrock_model r
    (.bedrock pr.1, pr.2)

/-- `ModelRouter.set_mode`.  The outcome of the connectivity probe
(`_check_connectivity`, a socket call) is the explicit argument `conn`;
the probe only runs on the cloud branch.  Returns Python's boolean result
together with the updated state. -/
def set_mode (r : ModelRouter) (mode : String) (conn : Bool) : Bool × ModelRouter :=
  if mode = "local" then
    (true, { r with current_mode := "local" })
  else if mode = "cloud" then
    if conn = false then (false, r)
    else
      let pr := get_bedrock_model r
      (true, { pr.2 with current_mode := "cloud" })
  else (false, r)

/-- One external call on a router: `set_mode` with the given probe outcome, or
`get_model`. -/
inductive RouterOp where
  | setMode (mode : String) (conn : Bool)
  | getModel
deriving DecidableEq, Repr

/-- The state after one call (results discarded). -/
def applyOp (r : ModelRouter) : RouterOp → ModelRouter
  | .setMode mode conn => (set_mode r mode conn).2
  | .getModel => (get_model r).2

/-- The state after a call sequence. -/
def runOps (r : ModelRouter) : List RouterOp → ModelRouter
  | [] => r
  | op :: ops => runOps (applyOp r op) ops

/-- How many calls of the sequence construct the Bedrock handle (take the
state from no cached handle to a cached one). -/
def constructionCount (r : ModelRouter) : List RouterOp → Nat
  | [] => 0
  | op :: ops =>
      (if r.bedrock_model = none ∧ (applyOp r op).bedrock_model ≠ none then 1 else 0) +
        constructionCount (applyOp r op) ops

/- ===================== Concrete inputs used by the claims ===================== -/

/-- The P6 report text. -/
def p6text : String :=
  "Production Line: LINE-001\nShift: Morning\nUnits Produced: 450\nTarget: 500\nEfficiency: 90%"

/-- The P6 report text with the trailing percent sign omitted. -/
def p6text_nopct : String :=
  "Production Line: LINE-001\nShift: Morning\nUnits Produced: 450\nTarget: 500\nEfficiency: 90"

/-- The record P6 expects. -/
def p6record : ProductionMetrics :=
  { line_id := "LINE-001", shift := "Morning", units_produced := 450,
    units_target := 500, efficiency_percent := 90, equipment := [] }

/-- A report with the Shift field missing entirely (P7). -/
def p7text : String :=
  "Production Line: LINE-001\nUnits Produced: 450\nTarget: 500\nEfficiency: 90%"

/-- A report whose Units Produced value is negative (P8). -/
def p8text : String :=
  "Production Line: LINE-001\nShift: Morning\nUnits Produced: -5\nTarget: 500\nEfficiency: 90%"

/-- The P6 report plus an equipment block with an unrecognized status (P9). -/
def p9text : String :=
  "Production Line: LINE-001\nShift: Morning\nUnits Produced: 450\nTarget: 500\nEfficiency: 90%\nEquipment: EQ-1 - Pump A (unknown)"

/-- A report fragment with an equipment block, a sensor line and an alarm line. -/
def c5text : String :=
  "Equipment: EQ1 - Pump (running)\nSensor: TEMP1 = 75 C\nAlarm: AL1 (high) - Overheat"

/-- The equipment entry the extractor assembles from `c5text`. -/
def c5equip : EquipmentStatus :=
  { equipment_id := "EQ1", name := "Pump", status := "running",
    readings := [{ sensor_id := "TEMP1", value := 75, unit := "C", timestamp := none }],
    active_alarms := [{ alarm_id := "AL1", severity := "high", message := "Overheat", acknowledged := false }] }

def demoOllamaConfig : OllamaConfig := ⟨none, none, none, none⟩

def demoBedrockConfig : BedrockConfig := ⟨none, none⟩

def demoRouter : ModelRouter := initRouter demoOllamaConfig demoBedrockConfig

def demoBedrock : BedrockModel := mkBedrockModel demoBedrockConfig

/-- A router state whose Bedrock handle has already been constructed. -/
def demoRouterCloud : ModelRouter :=
  { demoRouter with bedrock_model := some demoBedrock, current_mode := "cloud" }

/-- A call sequence with repeated local/cloud switches and a cloud-mode read. -/
def demoOps : List RouterOp :=
  [.setMode "cloud" true, .setMode "local" true, .setMode "cloud" true, .getModel]

/-- The required fields in extraction order, each with its pattern list. -/
def fieldSpecs : List (String × List (List (List SP))) :=
  [("line_id", line_id_patterns), ("shift", shift_patterns),
   ("units_produced", units_produced_patterns), ("units_target", units_target_patterns),
   ("efficiency_percent", efficiency_patterns)]

/-- No pattern of the list matches anywhere in `t`. -/
def fieldMissing (t : List Char) (pats : List (List (List SP))) : Prop :=
  ∀ pat ∈ pats, reSearch pat t = none

instance (t : List Char) (pats : List (List (List SP))) : Decidable (fieldMissing t pats) := by
  unfold fieldMissing
  exact List.decidableBAll _ pats

/- ===================== Router lemmas ===================== -/

/-- Every `applyOp` step preserves an already-constructed Bedrock handle. -/
theorem applyOp_preserves_bedrock (r : ModelRouter) (op : RouterOp) (b : BedrockModel)
    (h : r.bedrock_model = some b) : (applyOp r op).bedrock_model = some b := by
  cases op with
  | setMode mode conn =>
      simp only [applyOp, set_mode]
      split
      · simpa using h
      · split
        · split
          · simpa using h
          · simp only [get_bedrock_model, h]
        · simpa using h
  | getModel =>
      simp only [applyOp, get_model]
      split
      · simpa using h
      · simp only [get_bedrock_model, h]

/-- Once the handle exists no later call constructs one. -/
theorem constructionCount_eq_zero (ops : List RouterOp) :
    ∀ (r : ModelRouter) (b : BedrockModel), r.bedrock_model = some b →
      constructionCount r ops = 0 := by
  induction ops with
  | nil => intro r b _; rfl
  | cons op ops ih =>
      intro r b h
      simp only [constructionCount, h]
      rw [if_neg (by simp), ih (applyOp r op) b (applyOp_preserves_bedrock r op b h)]

/-- Along any call sequence, the Bedrock handle is constructed at most once. -/
theorem constructionCount_le_one (ops : List RouterOp) :
    ∀ r : ModelRouter, constructionCount r ops ≤ 1 := by
  induction ops with
  | nil => intro r; exact Nat.zero_le 1
  | cons op ops ih =>
      intro r
      simp only [constructionCount]
      by_cases hc : r.bedrock_model = none ∧ (applyOp r op).bedrock_model ≠ none
      · rw [if_pos hc]
        rcases hb : (applyOp r op).bedrock_model with _ | b
        · exact absurd hb hc.2
        · rw [constructionCount_eq_zero ops (applyOp r op) b hb]
      · rw [if_neg hc]
        simpa using ih (applyOp r op)

/- ===================== Claims C1, C2, C9 (ModelRouter) ===================== -/

/-- C1: for every router state, `set_mode("cloud")` returns success exactly
when the connectivity probe succeeds; on probe success the mode becomes
`"cloud"`, and on probe failure the returned state is the unchanged input
state (mode and all other fields). -/
theorem claim_C1_cloud_switch_iff_probe (r : ModelRouter) (conn : Bool) :
    ((set_mode r "cloud" conn).1 = conn) ∧
    (conn = true → (set_mode r "cloud" conn).2.current_mode = "cloud") ∧
    (conn = false → (set_mode r "cloud" conn).2 = r) := by
  cases conn <;> simp [set_mode]

/-- Witness for C1 at a concrete router and both probe outcomes. -/
theorem claim_C1_witness :
    (set_mode demoRouter "cloud" false).1 = false ∧
    (set_mode demoRouter "cloud" false).2 = demoRouter ∧
    (set_mode demoRouter "cloud" true).2.current_mode = "cloud" :=
  ⟨(claim_C1_cloud_switch_iff_probe demoRouter false).1,
   (claim_C1_cloud_switch_iff_probe demoRouter false).2.2 rfl,
   (claim_C1_cloud_switch_iff_probe demoRouter true).2.1 rfl⟩

/-- C2: a fresh router has no cloud handle; along any call sequence the
handle is constructed at most once; once cached it survives every further
call and `_get_bedrock_model` returns the cached handle unchanged; and a
construction step can only be a successful switch-to-cloud or a `get_model`
call outside local mode. -/
theorem claim_C2_bedrock_constructed_once :
    (∀ (oc : OllamaConfig) (bc : BedrockConfig), (initRouter oc bc).bedrock_model = none) ∧
    (∀ (oc : OllamaConfig) (bc : BedrockConfig) (ops : List RouterOp),
        constructionCount (initRouter oc bc) ops ≤ 1) ∧
    (∀ (r : ModelRouter) (op : RouterOp) (b : BedrockModel),
        r.bedrock_model = some b → (applyOp r op).bedrock_model = some b) ∧
    (∀ (r : ModelRouter) (b : BedrockModel),
        r.bedrock_model = some b → get_bedrock_model r = (b, r)) ∧
    (∀ (r : ModelRouter) (op : RouterOp),
        r.bedrock_model = none → (applyOp r op).bedrock_model ≠ none →
          op = .setMode "cloud" true ∨ (op = .getModel ∧ r.current_mode ≠ "local")) := by
  refine ⟨fun _ _ => rfl, fun _ _ ops => constructionCount_le_one ops _,
    applyOp_preserves_bedrock, fun r b h => by simp [get_bedrock_model, h], ?_⟩
  intro r op h hop
  cases op with
  | setMode mode conn =>
      left
      simp only [applyOp, set_mode] at hop
      by_cases hm : mode = "local"
      · rw [if_pos hm] at hop; exact absurd h hop
      · rw [if_neg hm] at hop
        by_cases hc : mode = "cloud"
        · subst hc
          cases conn with
          | false => simp at hop; exact absurd h hop
          | true => rfl
        · rw [if_neg hc] at hop; exact absurd h hop
  | getModel =>
      right
      simp only [applyOp, get_model] at hop
      by_cases hm : r.current_mode = "local"
      · rw [if_pos hm] at hop; exact absurd h hop
      · exact ⟨rfl, hm⟩

/-- Witness for C2 at a concrete call sequence and a concrete cached state. -/
theorem claim_C2_witness :
    constructionCount demoRouter demoOps ≤ 1 ∧
    (applyOp demoRouterCloud .getModel).bedrock_model = some demoBedrock ∧
    get_bedrock_model demoRouterCloud = (demoBedrock, demoRouterCloud) :=
  ⟨claim_C2_bedrock_constructed_once.2.1 demoOllamaConfig demoBedrockConfig demoOps,
   claim_C2_bedrock_constructed_once.2.2.1 demoRouterCloud .getModel demoBedrock rfl,
   claim_C2_bedrock_constructed_once.2.2.2.1 demoRouterCloud demoBedrock rfl⟩

/-- C9: every fresh router starts in local mode, and `set_mode("local")`
always succeeds, setting the mode to local and changing nothing else. -/
theorem claim_C9_local_switch_always_succeeds :
    (∀ (oc : OllamaConfig) (bc : BedrockConfig), (initRouter oc bc).current_mode = "local") ∧
    (∀ (r : ModelRouter) (conn : Bool),
        set_mode r "local" conn = (true, { r with current_mode := "local" })) :=
  ⟨fun _ _ => rfl, fun _ _ => rfl⟩

/- ===================== Claims C7, C8 (concrete extractions) ===================== -/

/-- C7: on the P6 report, extraction succeeds with exactly the expected five
field values and no equipment, and the same record results when the trailing
percent sign is omitted (the sign sits outside the capture group, so it never
reaches the float conversion). -/
theorem claim_C7_p6_extraction :
    extract_scada_metrics p6text = .ok p6record ∧
    extract_scada_metrics p6text_nopct = .ok p6record := by
  constructor <;> decide

/-- C8: empty input and whitespace-only input are rejected with the
empty-input failure by the guard at the top of `extract_scada_metrics`,
before any field pattern is tried. -/
theorem claim_C8_empty_input (s : String) :
    (pyStrip s = "" → extract_scada_metrics s = .emptyInput) ∧
    extract_scada_metrics "" = .emptyInput ∧
    extract_scada_metrics "   " = .emptyInput := by
  refine ⟨fun h => ?_, by decide, by decide⟩
  unfold extract_scada_metrics
  rw [if_pos (Or.inr h)]

/-- Witness for C8 on a concrete whitespace-only input. -/
theorem claim_C8_witness : extract_scada_metrics " \t \n " = .emptyInput :=
  (claim_C8_empty_input " \t \n ").1 (by decide)

/- ===================== Matcher lemmas ===================== -/

theorem le_of_mem_clsCounts {n m : Nat} {q : Quant} {lz : Bool}
    (h : n ∈ clsCounts q lz m) : n ≤ m := by
  cases q with
  | one =>
      simp only [clsCounts] at h
      split at h
      · simp at h
      · rename_i hm
        simp at h
        subst h
        exact Nat.one_le_iff_ne_zero.mpr hm
  | opt =>
      simp only [clsCounts] at h
      split at h
      · simp at h; omega
      · rename_i hm
        split at h <;> simp at h <;> rcases h with rfl | rfl <;> omega
  | plus =>
      simp only [clsCounts] at h
      split at h <;> simp [List.mem_map, List.mem_range] at h <;> obtain ⟨i, hi, rfl⟩ := h <;> omega
  | star =>
      simp only [clsCounts] at h
      split at h
      · simp [List.mem_range] at h; omega
      · simp [List.mem_map, List.mem_range] at h; obtain ⟨i, hi, rfl⟩ := h; omega

theorem one_le_of_mem_clsCounts_plus {n m : Nat} {lz : Bool}
    (h : n ∈ clsCounts .plus lz m) : 1 ≤ n := by
  simp only [clsCounts] at h
  split at h <;> simp [List.mem_map, List.mem_range] at h <;> obtain ⟨i, hi, rfl⟩ := h <;> omega

theorem mem_clsCounts_one {n m : Nat} {lz : Bool}
    (h : n ∈ clsCounts .one lz m) : n = 1 ∧ 1 ≤ m := by
  simp only [clsCounts] at h
  split at h
  · simp at h
  · rename_i hm
    simp at h
    exact ⟨h, Nat.one_le_iff_ne_zero.mpr hm⟩

theorem maxRun_le_length (f : Char → Bool) : ∀ cs : List Char, maxRun f cs ≤ cs.length := by
  intro cs
  induction cs with
  | nil => exact Nat.le_refl 0
  | cons c cs ih =>
      simp only [maxRun]
      split
      · simpa using ih
      · exact Nat.zero_le _

theorem all_take_of_le_maxRun (f : Char → Bool) :
    ∀ (cs : List Char) (n : Nat), n ≤ maxRun f cs → ∀ c ∈ cs.take n, f c = true := by
  intro cs
  induction cs with
  | nil => intro n _ c hc; simp at hc
  | cons a cs ih =>
      intro n hn c hc
      cases n with
      | zero => simp at hc
      | succ k =>
          simp only [maxRun] at hn
          split at hn
          · rename_i ha
            simp only [List.take_succ_cons, List.mem_cons] at hc
            rcases hc with rfl | hc
            · exact ha
            · exact ih k (Nat.succ_le_succ_iff.mp hn) c hc
          · omega

theorem exists_head_of_one_le_maxRun (f : Char → Bool) (cs : List Char)
    (h : 1 ≤ maxRun f cs) : ∃ c cs', cs = c :: cs' ∧ f c = true := by
  cases cs with
  | nil => simp [maxRun] at h
  | cons c cs' =>
      simp only [maxRun] at h
      split at h
      · rename_i hc; exact ⟨c, cs', rfl, hc⟩
      · omega

theorem take_ne_nil_of_mem_plus {f : Char → Bool} {lz : Bool} {n : Nat} {cs : List Char}
    (hn : n ∈ clsCounts .plus lz (maxRun f cs)) : cs.take n ≠ [] := by
  have h1 : 1 ≤ n := one_le_of_mem_clsCounts_plus hn
  have h2 : n ≤ cs.length := Nat.le_trans (le_of_mem_clsCounts hn) (maxRun_le_length f cs)
  intro hnil
  have hlen : (cs.take n).length = n := by rw [List.length_take]; omega
  rw [hnil] at hlen
  simp at hlen
  omega

theorem mem_matchBody_nil_iff {cs : List Char} {pr : List Char × List Char} :
    pr ∈ matchBody [] cs ↔ pr = ([], cs) := by
  simp [matchBody]

theorem mem_matchBody_gcls {f : Char → Bool} {q : Quant} {lz : Bool} {ps : List GP}
    {cs : List Char} {pr : List Char × List Char} :
    pr ∈ matchBody (.gcls f q lz :: ps) cs ↔
      ∃ n, n ∈ clsCounts q lz (maxRun f cs) ∧
        ∃ pr', pr' ∈ matchBody ps (cs.drop n) ∧ pr = (cs.take n ++ pr'.1, pr'.2) := by
  simp only [matchBody, List.mem_flatMap, List.mem_map]
  constructor
  · rintro ⟨n, hn, pr', hpr', rfl⟩
    exact ⟨n, hn, pr', hpr', rfl⟩
  · rintro ⟨n, hn, pr', hpr', rfl⟩
    exact ⟨n, hn, pr', hpr', rfl⟩

theorem bodyConsumes_cls {f : Char → Bool} {q : Quant} {z : Bool} {cap : List Char}
    (h : BodyConsumes [.gcls f q z] cap) :
    (∀ c ∈ cap, f c = true) ∧ (q = .plus → cap ≠ []) := by
  obtain ⟨cs, pr, hm, hcap⟩ := h
  rw [mem_matchBody_gcls] at hm
  obtain ⟨n, hn, pr', hpr', rfl⟩ := hm
  rw [mem_matchBody_nil_iff] at hpr'
  subst hpr'
  simp only [List.append_nil] at hcap
  subst hcap
  refine ⟨fun c hc => all_take_of_le_maxRun f cs n (le_of_mem_clsCounts hn) c hc, ?_⟩
  rintro rfl
  exact take_ne_nil_of_mem_plus hn

theorem bodyConsumes_float {cap : List Char} (h : BodyConsumes floatBody cap) :
    ∃ d1 d2, cap = d1 ++ '.' :: d2 ∧ d1 ≠ [] ∧ d2 ≠ [] ∧
      (∀ c ∈ d1, pyDigit c = true) ∧ (∀ c ∈ d2, pyDigit c = true) := by
  obtain ⟨cs, pr, hm, hcap⟩ := h
  unfold floatBody at hm
  rw [mem_matchBody_gcls] at hm
  obtain ⟨n1, hn1, pr1, hpr1, rfl⟩ := hm
  rw [mem_matchBody_gcls] at hpr1
  obtain ⟨n2, hn2, pr2, hpr2, rfl⟩ := hpr1
  rw [mem_matchBody_gcls] at hpr2
  obtain ⟨n3, hn3, pr3, hpr3, rfl⟩ := hpr2
  rw [mem_matchBody_nil_iff] at hpr3
  subst hpr3
  obtain ⟨hn2e, hm2⟩ := mem_clsCounts_one hn2
  subst hn2e
  obtain ⟨c, cs2, hcs2, hc⟩ := exists_head_of_one_le_maxRun dotChar _ hm2
  have hcdot : c = '.' := by simpa [dotChar] using hc
  subst hcdot
  refine ⟨cs.take n1, (cs.drop n1).drop 1 |>.take n3, ?_, ?_, ?_, ?_, ?_⟩
  · subst hcap
    simp only [hcs2, List.take_succ_cons, List.take_zero, List.drop_succ_cons, List.drop_zero,
      List.append_nil, List.cons_append, List.nil_append, List.append_assoc]
  · exact take_ne_nil_of_mem_plus hn1
  · have : (cs.drop n1).drop 1 = cs2 := by rw [hcs2]; rfl
    rw [this]
    exact take_ne_nil_of_mem_plus (by simpa [hcs2] using hn3)
  · exact all_take_of_le_maxRun pyDigit cs n1 (le_of_mem_clsCounts hn1)
  · have h2 : (cs.drop n1).drop 1 = cs2 := by rw [hcs2]; rfl
    rw [h2]
    exact all_take_of_le_maxRun pyDigit cs2 n3 (by simpa [hcs2] using le_of_mem_clsCounts hn3)

theorem matchSP_caps : ∀ (ps : List SP) (cs : List Char) (acc : List (List Char))
    (pr : List (List Char) × List Char), pr ∈ matchSP ps cs acc →
    ∃ news, pr.1 = acc.reverse ++ news ∧ List.Forall₂ BodyConsumes (groupBodies ps) news := by
  intro ps
  induction ps with
  | nil =>
      intro cs acc pr h
      simp only [matchSP, List.mem_singleton] at h
      subst h
      exact ⟨[], by simp, by simp [groupBodies]⟩
  | cons p ps ih =>
      intro cs acc pr h
      cases p with
      | lit l =>
          simp only [matchSP] at h
          split at h
          · exact ih _ _ _ h
          · simp at h
      | cls f q lz =>
          simp only [matchSP, List.mem_flatMap] at h
          obtain ⟨n, _, h⟩ := h
          exact ih _ _ _ h
      | grp body =>
          simp only [matchSP, List.mem_flatMap] at h
          obtain ⟨bpr, hb, h⟩ := h
          obtain ⟨news, hcaps, hf⟩ := ih _ _ _ h
          refine ⟨bpr.1 :: news, ?_, List.Forall₂.cons ⟨cs, bpr, hb, rfl⟩ hf⟩
          rw [hcaps]
          simp
      | eol =>
          cases cs with
          | nil => exact ih _ _ _ h
          | cons c rest =>
              by_cases hc : c = '\n'
              · subst hc
                have h' : pr ∈ matchSP ps rest acc := by simpa [matchSP] using h
                exact ih _ _ _ h'
              · exfalso
                simp [matchSP, hc] at h

theorem mem_of_head?_eq {α : Type} {l : List α} {a : α} (h : l.head? = some a) : a ∈ l := by
  cases l with
  | nil => simp at h
  | cons b l => simp only [List.head?] at h; injection h with h; exact h ▸ List.mem_cons_self b l

theorem tryAlts_some : ∀ (alts : List (List SP)) (cs : List Char)
    (pr : List (List Char) × List Char), tryAlts alts cs = some pr →
    ∃ alt, alt ∈ alts ∧ pr ∈ matchSP alt cs [] := by
  intro alts
  induction alts with
  | nil => intro cs pr h; simp [tryAlts] at h
  | cons alt alts ih =>
      intro cs pr h
      simp only [tryAlts] at h
      rcases hh : (matchSP alt cs []).head? with _ | pr'
      · rw [hh] at h
        obtain ⟨a, ha, hm⟩ := ih cs pr h
        exact ⟨a, List.mem_cons_of_mem _ ha, hm⟩
      · rw [hh] at h
        have hpr : pr' = pr := by simpa using h
        subst hpr
        exact ⟨alt, List.mem_cons_self _ _, mem_of_head?_eq hh⟩

theorem reSearch_some (alts : List (List SP)) : ∀ (cs : List Char)
    (pr : List (List Char) × List Char), reSearch alts cs = some pr →
    ∃ cs' alt, alt ∈ alts ∧ pr ∈ matchSP alt cs' [] := by
  intro cs
  induction cs with
  | nil =>
      intro pr h
      obtain ⟨alt, ha, hm⟩ := tryAlts_some alts [] pr h
      exact ⟨[], alt, ha, hm⟩
  | cons c cs ih =>
      intro pr h
      simp only [reSearch] at h
      rcases ht : tryAlts alts (c :: cs) with _ | pr'
      · rw [ht] at h
        exact ih pr h
      · rw [ht] at h
        have hpr : pr' = pr := by simpa using h
        subst hpr
        obtain ⟨alt, ha, hm⟩ := tryAlts_some alts (c :: cs) pr' ht
        exact ⟨c :: cs, alt, ha, hm⟩

theorem extract_field_some : ∀ (pats : List (List (List SP))) (t : List Char) (s : String),
    extract_field t pats = some s →
    ∃ pat, pat ∈ pats ∧ ∃ pr, reSearch pat t = some pr ∧
      s = pyStrip (String.mk (pr.1.getD 0 [])) := by
  intro pats
  induction pats with
  | nil => intro t s h; simp [extract_field] at h
  | cons pat pats ih =>
      intro t s h
      simp only [extract_field] at h
      rcases hr : reSearch pat t with _ | pr
      · rw [hr] at h
        obtain ⟨p, hp, pr, hpr, hs⟩ := ih t s h
        exact ⟨p, List.mem_cons_of_mem _ hp, pr, hpr, hs⟩
      · rw [hr] at h
        have hs : pyStrip (String.mk (pr.1.getD 0 [])) = s := by simpa using h
        exact ⟨pat, List.mem_cons_self _ _, pr, hr, hs.symm⟩

theorem extract_field_none_iff (t : List Char) : ∀ (pats : List (List (List SP))),
    extract_field t pats = none ↔ ∀ pat ∈ pats, reSearch pat t = none := by
  intro pats
  induction pats with
  | nil => simp [extract_field]
  | cons pat pats ih =>
      simp only [extract_field]
      rcases hr : reSearch pat t with _ | pr
      · simp only [List.mem_cons]
        constructor
        · intro h p hp
          rcases hp with rfl | hp
          · exact hr
          · exact (ih.mp h) p hp
        · intro h
          exact ih.mpr (fun p hp => h p (Or.inr hp))
      · constructor
        · intro h; simp at h
        · intro h
          exact absurd hr (by simp [h pat (List.mem_cons_self _ _)])

/-- Every successful `_extract_field` value is the strip of a string consumed
by the capture-group body of one of the tried patterns. -/
theorem extract_field_body {pats : List (List (List SP))} {t : List Char} {s : String}
    (P : List GP → Prop)
    (hb : ∀ pat ∈ pats, ∀ alt ∈ pat, ∃ body, groupBodies alt = [body] ∧ P body)
    (h : extract_field t pats = some s) :
    ∃ body cap, P body ∧ BodyConsumes body cap ∧ s = pyStrip (String.mk cap) := by
  obtain ⟨pat, hpat, pr, hsearch, hs⟩ := extract_field_some pats t s h
  obtain ⟨cs', alt, halt, hm⟩ := reSearch_some pat t pr hsearch
  obtain ⟨body, hgb, hP⟩ := hb pat hpat alt halt
  obtain ⟨news, hcaps, hf⟩ := matchSP_caps alt cs' [] pr hm
  rw [hgb] at hf
  cases hf with
  | cons hbc htail =>
      cases htail
      refine ⟨body, _, hP, hbc, ?_⟩
      rw [hs, hcaps]
      simp

/- ===================== Strip and character-class lemmas ===================== -/

theorem dropWhile_eq_self_of_all {p : Char → Bool} {l : List Char}
    (h : ∀ c ∈ l, p c = false) : l.dropWhile p = l := by
  cases l with
  | nil => rfl
  | cons c cs =>
      rw [List.dropWhile_cons, if_neg]
      simp [h c (List.mem_cons_self c cs)]

theorem pyStripL_eq_self {l : List Char} (h : ∀ c ∈ l, pySpace c = false) :
    pyStripL l = l := by
  unfold pyStripL
  rw [dropWhile_eq_self_of_all h, dropWhile_eq_self_of_all (by simpa using h),
    List.reverse_reverse]

theorem pySpace_cases {c : Char} (h : pySpace c = true) :
    c = ' ' ∨ c = '\t' ∨ c = '\n' ∨ c = '\r' ∨ c = '\x0b' ∨ c = '\x0c' := by
  have h' := h
  simp only [pySpace, Bool.or_eq_true, decide_eq_true_eq] at h'
  tauto

theorem idChar_not_space {c : Char} (h : pyIdChar c = true) : pySpace c = false := by
  cases hs : pySpace c
  · rfl
  · rcases pySpace_cases hs with rfl | rfl | rfl | rfl | rfl | rfl <;> exact absurd h (by decide)

theorem wordChar_not_space {c : Char} (h : pyWord c = true) : pySpace c = false := by
  cases hs : pySpace c
  · rfl
  · rcases pySpace_cases hs with rfl | rfl | rfl | rfl | rfl | rfl <;> exact absurd h (by decide)

theorem digit_not_space {c : Char} (h : pyDigit c = true) : pySpace c = false := by
  cases hs : pySpace c
  · rfl
  · rcases pySpace_cases hs with rfl | rfl | rfl | rfl | rfl | rfl <;> exact absurd h (by decide)

theorem pyStrip_mk_eq_self {cap : List Char} (h : ∀ c ∈ cap, pySpace c = false) :
    pyStrip (String.mk cap) = String.mk cap := by
  unfold pyStrip
  rw [show (String.mk cap).data = cap from rfl, pyStripL_eq_self h]

/- ===================== Numeric conversion lemmas ===================== -/

theorem takeWhile_all {p : Char → Bool} {l : List Char} (h : ∀ c ∈ l, p c = true) :
    l.takeWhile p = l ∧ l.dropWhile p = [] := by
  induction l with
  | nil => exact ⟨rfl, rfl⟩
  | cons c cs ih =>
      have hc := h c (List.mem_cons_self c cs)
      have := ih (fun x hx => h x (List.mem_cons_of_mem c hx))
      simp [List.takeWhile_cons, List.dropWhile_cons, hc, this.1, this.2]

theorem takeWhile_append_stop {p : Char → Bool} {d1 : List Char} {c : Char} {t : List Char}
    (h1 : ∀ x ∈ d1, p x = true) (hc : p c = false) :
    (d1 ++ c :: t).takeWhile p = d1 ∧ (d1 ++ c :: t).dropWhile p = c :: t := by
  induction d1 with
  | nil => simp [List.takeWhile_cons, List.dropWhile_cons, hc]
  | cons a d1 ih =>
      have ha := h1 a (List.mem_cons_self a d1)
      have := ih (fun x hx => h1 x (List.mem_cons_of_mem a hx))
      simp [List.takeWhile_cons, List.dropWhile_cons, ha, this.1, this.2]

theorem pyInt_digits {cap : List Char} (hne : cap ≠ []) (hd : ∀ c ∈ cap, pyDigit c = true) :
    pyInt (String.mk cap) = some ((digitsVal cap : Int)) ∧ (0 : Int) ≤ (digitsVal cap : Int) := by
  rcases cap with _ | ⟨c, rest⟩
  · exact absurd rfl hne
  · have hstrip : pyStripL (c :: rest) = c :: rest :=
      pyStripL_eq_self (fun x hx => digit_not_space (hd x hx))
    have hc : pyDigit c = true := hd c (List.mem_cons_self c rest)
    have hcm : ¬(c = '-') := fun h => by subst h; exact absurd hc (by decide)
    have hcp : ¬(c = '+') := fun h => by subst h; exact absurd hc (by decide)
    constructor
    · unfold pyInt
      rw [show (String.mk (c :: rest)).data = c :: rest from rfl, hstrip]
      simp only [pyIntAux, if_neg hcm, if_neg hcp]
      rw [if_pos (List.all_eq_true.mpr hd)]
    · exact Int.ofNat_nonneg _

theorem pyFloat_digits {cap : List Char} (hne : cap ≠ []) (hd : ∀ c ∈ cap, pyDigit c = true) :
    pyFloat (String.mk cap) = some ((digitsVal cap : ℚ)) ∧ (0 : ℚ) ≤ (digitsVal cap : ℚ) := by
  rcases cap with _ | ⟨c, rest⟩
  · exact absurd rfl hne
  · have hstrip : pyStripL (c :: rest) = c :: rest :=
      pyStripL_eq_self (fun x hx => digit_not_space (hd x hx))
    have hc : pyDigit c = true := hd c (List.mem_cons_self c rest)
    have hcm : ¬(c = '-') := fun h => by subst h; exact absurd hc (by decide)
    have hcp : ¬(c = '+') := fun h => by subst h; exact absurd hc (by decide)
    constructor
    · unfold pyFloat
      rw [show (String.mk (c :: rest)).data = c :: rest from rfl, hstrip]
      simp only [pyFloatAux, if_neg hcm, if_neg hcp]
      unfold pyFloatMag
      rw [(takeWhile_all hd).1, (takeWhile_all hd).2]
      simp [pyFloatFrom]
    · exact Nat.cast_nonneg _

theorem pyFloat_dotted {d1 d2 : List Char} (h1 : d1 ≠ []) (h2 : d2 ≠ [])
    (hd1 : ∀ c ∈ d1, pyDigit c = true) (hd2 : ∀ c ∈ d2, pyDigit c = true) :
    ∃ q : ℚ, pyFloat (String.mk (d1 ++ '.' :: d2)) = some q ∧ 0 ≤ q := by
  have hns : ∀ c ∈ d1 ++ '.' :: d2, pySpace c = false := by
    intro c hcmem
    rcases List.mem_append.mp hcmem with hcd | hcd
    · exact digit_not_space (hd1 c hcd)
    · rcases List.mem_cons.mp hcd with rfl | hcd
      · decide
      · exact digit_not_space (hd2 c hcd)
  have hstrip : pyStripL (d1 ++ '.' :: d2) = d1 ++ '.' :: d2 := pyStripL_eq_self hns
  rcases d1 with _ | ⟨c, rest⟩
  · exact absurd rfl h1
  · have hc : pyDigit c = true := hd1 c (List.mem_cons_self c rest)
    have hcm : ¬(c = '-') := fun h => by subst h; exact absurd hc (by decide)
    have hcp : ¬(c = '+') := fun h => by subst h; exact absurd hc (by decide)
    refine ⟨(digitsVal (c :: rest) : ℚ) + (digitsVal d2 : ℚ) / ((10 : ℚ) ^ d2.length), ?_, ?_⟩
    · unfold pyFloat
      rw [show (String.mk ((c :: rest) ++ '.' :: d2)).data = (c :: rest) ++ '.' :: d2 from rfl,
        hstrip]
      rw [show ((c :: rest) ++ '.' :: d2) = c :: (rest ++ '.' :: d2) from rfl]
      simp only [pyFloatAux, if_neg hcm, if_neg hcp]
      unfold pyFloatMag
      have hsplit := takeWhile_append_stop (t := d2) (c := '.') hd1 (by decide)
      rw [show (c :: (rest ++ '.' :: d2)) = (c :: rest) ++ '.' :: d2 from rfl, hsplit.1, hsplit.2]
      simp [pyFloatFrom, List.all_eq_true.mpr hd2]
    · have hq1 : (0 : ℚ) ≤ (digitsVal (c :: rest) : ℚ) := Nat.cast_nonneg _
      have hq2 : (0 : ℚ) ≤ (digitsVal d2 : ℚ) / ((10 : ℚ) ^ d2.length) :=
        div_nonneg (Nat.cast_nonneg _) (pow_nonneg (by norm_num) _)
      linarith

/- ===================== Required-field capture lemmas ===================== -/

/-- A successful line-id extraction yields a nonempty string. -/
theorem line_field_nonempty {t : List Char} {s : String}
    (h : extract_field t line_id_patterns = some s) : s.data ≠ [] := by
  have hb : ∀ pat ∈ line_id_patterns, ∀ alt ∈ pat,
      ∃ body, groupBodies alt = [body] ∧ body = idBody := by
    intro pat hpat alt halt
    simp only [line_id_patterns, List.mem_cons, List.not_mem_nil, or_false] at hpat
    rcases hpat with rfl | rfl
    · simp only [line_pat1, List.mem_cons, List.not_mem_nil, or_false] at halt
      rcases halt with rfl | rfl | rfl | rfl <;> exact ⟨idBody, rfl, rfl⟩
    · simp only [line_pat2, List.mem_cons, List.not_mem_nil, or_false] at halt
      rcases halt with rfl
      exact ⟨idBody, rfl, rfl⟩
  obtain ⟨body, cap, hPb, hbc, hs⟩ := extract_field_body (· = idBody) hb h
  subst hPb
  obtain ⟨hall, hne⟩ := bodyConsumes_cls (f := pyIdChar) (q := .plus) (z := false) hbc
  have hcap : cap ≠ [] := hne rfl
  have hstr : pyStrip (String.mk cap) = String.mk cap :=
    pyStrip_mk_eq_self (fun c hc => idChar_not_space (hall c hc))
  rw [hs, hstr]
  exact hcap

/-- A successful shift extraction yields a nonempty string. -/
theorem shift_field_nonempty {t : List Char} {s : String}
    (h : extract_field t shift_patterns = some s) : s.data ≠ [] := by
  have hb : ∀ pat ∈ shift_patterns, ∀ alt ∈ pat,
      ∃ body, groupBodies alt = [body] ∧ body = wordBody := by
    intro pat hpat alt halt
    simp only [shift_patterns, List.mem_cons, List.not_mem_nil, or_false] at hpat
    have hps : pat = shift_pat := by rcases hpat with rfl | rfl <;> rfl
    subst hps
    simp only [shift_pat, List.mem_cons, List.not_mem_nil, or_false] at halt
    rcases halt with rfl
    exact ⟨wordBody, rfl, rfl⟩
  obtain ⟨body, cap, hPb, hbc, hs⟩ := extract_field_body (· = wordBody) hb h
  subst hPb
  obtain ⟨hall, hne⟩ := bodyConsumes_cls (f := pyWord) (q := .plus) (z := false) hbc
  have hcap : cap ≠ [] := hne rfl
  have hstr : pyStrip (String.mk cap) = String.mk cap :=
    pyStrip_mk_eq_self (fun c hc => wordChar_not_space (hall c hc))
  rw [hs, hstr]
  exact hcap

/-- A successful extraction over patterns whose capture is `(\d+)` converts
with Python `int` to a nonnegative integer. -/
theorem int_field_of_digitBody {pats : List (List (List SP))} {t : List Char} {s : String}
    (hb : ∀ pat ∈ pats, ∀ alt ∈ pat, ∃ body, groupBodies alt = [body] ∧ body = digitBody)
    (h : extract_field t pats = some s) :
    ∃ k : Int, pyInt s = some k ∧ 0 ≤ k := by
  obtain ⟨body, cap, hPb, hbc, hs⟩ := extract_field_body (· = digitBody) hb h
  subst hPb
  obtain ⟨hall, hne⟩ := bodyConsumes_cls (f := pyDigit) (q := .plus) (z := false) hbc
  have hcap : cap ≠ [] := hne rfl
  have hstr : pyStrip (String.mk cap) = String.mk cap :=
    pyStrip_mk_eq_self (fun c hc => digit_not_space (hall c hc))
  rw [hs, hstr]
  obtain ⟨heq, hpos⟩ := pyInt_digits hcap hall
  exact ⟨_, heq, hpos⟩

theorem up_field_int {t : List Char} {s : String}
    (h : extract_field t units_produced_patterns = some s) :
    ∃ k : Int, pyInt s = some k ∧ 0 ≤ k := by
  refine int_field_of_digitBody ?_ h
  intro pat hpat alt halt
  simp only [units_produced_patterns, List.mem_cons, List.not_mem_nil, or_false] at hpat
  rcases hpat with rfl | rfl | rfl
  · simp only [up_pat1, List.mem_cons, List.not_mem_nil, or_false] at halt
    rcases halt with rfl
    exact ⟨digitBody, rfl, rfl⟩
  · simp only [up_pat2, List.mem_cons, List.not_mem_nil, or_false] at halt
    rcases halt with rfl
    exact ⟨digitBody, rfl, rfl⟩
  · simp only [up_pat3, List.mem_cons, List.not_mem_nil, or_false] at halt
    rcases halt with rfl
    exact ⟨digitBody, rfl, rfl⟩

theorem ut_field_int {t : List Char} {s : String}
    (h : extract_field t units_target_patterns = some s) :
    ∃ k : Int, pyInt s = some k ∧ 0 ≤ k := by
  refine int_field_of_digitBody ?_ h
  intro pat hpat alt halt
  simp only [units_target_patterns, List.mem_cons, List.not_mem_nil, or_false] at hpat
  rcases hpat with rfl | rfl
  · simp only [ut_pat1, List.mem_cons, List.not_mem_nil, or_false] at halt
    rcases halt with rfl | rfl <;> exact ⟨digitBody, rfl, rfl⟩
  · simp only [ut_pat2, List.mem_cons, List.not_mem_nil, or_false] at halt
    rcases halt with rfl
    exact ⟨digitBody, rfl, rfl⟩

/-- A successful efficiency extraction converts with Python `float` to a
nonnegative rational. -/
theorem eff_field_float {t : List Char} {s : String}
    (h : extract_field t efficiency_patterns = some s) :
    ∃ q : ℚ, pyFloat s = some q ∧ 0 ≤ q := by
  have hb : ∀ pat ∈ efficiency_patterns, ∀ alt ∈ pat,
      ∃ body, groupBodies alt = [body] ∧ (body = digitBody ∨ body = floatBody) := by
    intro pat hpat alt halt
    simp only [efficiency_patterns, List.mem_cons, List.not_mem_nil, or_false] at hpat
    rcases hpat with rfl | rfl | rfl
    · simp only [eff_pat1, List.mem_cons, List.not_mem_nil, or_false] at halt
      rcases halt with rfl | rfl | rfl | rfl
      · exact ⟨floatBody, rfl, Or.inr rfl⟩
      · exact ⟨digitBody, rfl, Or.inl rfl⟩
      · exact ⟨floatBody, rfl, Or.inr rfl⟩
      · exact ⟨digitBody, rfl, Or.inl rfl⟩
    · simp only [eff_pat2, List.mem_cons, List.not_mem_nil, or_false] at halt
      rcases halt with rfl | rfl
      · exact ⟨floatBody, rfl, Or.inr rfl⟩
      · exact ⟨digitBody, rfl, Or.inl rfl⟩
    · simp only [eff_pat3, List.mem_cons, List.not_mem_nil, or_false] at halt
      rcases halt with rfl | rfl
      · exact ⟨floatBody, rfl, Or.inr rfl⟩
      · exact ⟨digitBody, rfl, Or.inl rfl⟩
  obtain ⟨body, cap, hPb, hbc, hs⟩ :=
    extract_field_body (fun body => body = digitBody ∨ body = floatBody) hb h
  rcases hPb with rfl | rfl
  · obtain ⟨hall, hne⟩ := bodyConsumes_cls (f := pyDigit) (q := .plus) (z := false) hbc
    have hcap : cap ≠ [] := hne rfl
    have hstr : pyStrip (String.mk cap) = String.mk cap :=
      pyStrip_mk_eq_self (fun c hc => digit_not_space (hall c hc))
    rw [hs, hstr]
    obtain ⟨heq, hpos⟩ := pyFloat_digits hcap hall
    exact ⟨_, heq, hpos⟩
  · obtain ⟨d1, d2, hcap, h1, h2, hd1, hd2⟩ := bodyConsumes_float hbc
    subst hcap
    have hns : ∀ c ∈ d1 ++ '.' :: d2, pySpace c = false := by
      intro c hcmem
      rcases List.mem_append.mp hcmem with hcd | hcd
      · exact digit_not_space (hd1 c hcd)
      · rcases List.mem_cons.mp hcd with rfl | hcd
        · decide
        · exact digit_not_space (hd2 c hcd)
    have hstr : pyStrip (String.mk (d1 ++ '.' :: d2)) = String.mk (d1 ++ '.' :: d2) :=
      pyStrip_mk_eq_self hns
    rw [hs, hstr]
    exact pyFloat_dotted h1 h2 hd1 hd2

/- ===================== Parse classification ===================== -/

/-- `_parse_scada_report` either succeeds (and then every required field had a
matching pattern), or fails with the missing-field error of a required field
none of whose patterns matched.  The numeric conversions and the record
validation never fail, because the capture groups only ever produce digit
strings (resp. nonempty identifier/word strings). -/
theorem parse_cases (report : String) :
    ((∃ m, parse_scada_report report = .ok m) ∧
      (∀ spec ∈ fieldSpecs, ¬ fieldMissing (pyStripL report.data) spec.2)) ∨
    (∃ spec ∈ fieldSpecs, parse_scada_report report = .missingField spec.1 ∧
      fieldMissing (pyStripL report.data) spec.2) := by
  rcases h1 : extract_field (pyStripL report.data) line_id_patterns with _ | s1
  · right
    refine ⟨("line_id", line_id_patterns), List.mem_cons_self _ _, ?_,
      (extract_field_none_iff _ _).mp h1⟩
    simp only [parse_scada_report, h1]
  rcases h2 : extract_field (pyStripL report.data) shift_patterns with _ | s2
  · right
    refine ⟨("shift", shift_patterns), List.mem_cons_of_mem _ (List.mem_cons_self _ _), ?_,
      (extract_field_none_iff _ _).mp h2⟩
    simp only [parse_scada_report, h1, h2]
  rcases h3 : extract_field (pyStripL report.data) units_produced_patterns with _ | s3
  · right
    refine ⟨("units_produced", units_produced_patterns),
      List.mem_cons_of_mem _ (List.mem_cons_of_mem _ (List.mem_cons_self _ _)), ?_,
      (extract_field_none_iff _ _).mp h3⟩
    simp only [parse_scada_report, h1, h2, h3]
  obtain ⟨k3, hk3, hk3n⟩ := up_field_int h3
  rcases h4 : extract_field (pyStripL report.data) units_target_patterns with _ | s4
  · right
    refine ⟨("units_target", units_target_patterns),
      List.mem_cons_of_mem _ (List.mem_cons_of_mem _ (List.mem_cons_of_mem _
        (List.mem_cons_self _ _))), ?_, (extract_field_none_iff _ _).mp h4⟩
    simp only [parse_scada_report, h1, h2, h3, hk3, h4]
  obtain ⟨k4, hk4, hk4n⟩ := ut_field_int h4
  rcases h5 : extract_field (pyStripL report.data) efficiency_patterns with _ | s5
  · right
    refine ⟨("efficiency_percent", efficiency_patterns),
      List.mem_cons_of_mem _ (List.mem_cons_of_mem _ (List.mem_cons_of_mem _
        (List.mem_cons_of_mem _ (List.mem_cons_self _ _)))), ?_,
      (extract_field_none_iff _ _).mp h5⟩
    simp only [parse_scada_report, h1, h2, h3, hk3, h4, hk4, h5]
  obtain ⟨q5, hq5, hq5n⟩ := eff_field_float h5
  left
  have hl1 : 1 ≤ s1.length := List.length_pos.mpr (line_field_nonempty h1)
  have hl2 : 1 ≤ s2.length := List.length_pos.mpr (shift_field_nonempty h2)
  have hpm : pmErrors s1 s2 k3 k4 q5 = [] := by
    simp only [pmErrors, if_pos hl1, if_pos hl2, if_pos hk3n, if_pos hk4n, if_pos hq5n]
    rfl
  have hval : validateProductionMetrics s1 s2 k3 k4 q5
      (extract_equipment_status (pyStripL report.data)) =
      .ok ⟨s1, s2, k3, k4, q5, extract_equipment_status (pyStripL report.data)⟩ := by
    unfold validateProductionMetrics
    rw [hpm]
  constructor
  · refine ⟨⟨s1, s2, k3, k4, q5, extract_equipment_status (pyStripL report.data)⟩, ?_⟩
    simp only [parse_scada_report, h1, h2, h3, hk3, h4, hk4, h5, hq5, hval]
  · intro spec hspec hmiss
    have hnone := (extract_field_none_iff (pyStripL report.data) spec.2).mpr hmiss
    simp only [fieldSpecs, List.mem_cons, List.not_mem_nil, or_false] at hspec
    rcases hspec with rfl | rfl | rfl | rfl | rfl
    · rw [h1] at hnone; cases hnone
    · rw [h2] at hnone; cases hnone
    · rw [h3] at hnone; cases hnone
    · rw [h4] at hnone; cases hnone
    · rw [h5] at hnone; cases hnone

/-- The tool never returns a validation-failure outcome: captures of the
required fields always convert and validate. -/
theorem no_validation_failure (report : String) (fs : List String) :
    extract_scada_metrics report ≠ .validationFailure fs := by
  unfold extract_scada_metrics
  split
  · intro h; cases h
  · rcases parse_cases report with ⟨⟨m, hok⟩, _⟩ | ⟨spec, _, hmiss, _⟩
    · rw [hok]; intro h; cases h
    · rw [hmiss]; intro h; cases h

/- ===================== Equipment membership ===================== -/

/-- Inversion for entries of `_extract_equipment_status`: every entry has a
recognized status and carries the document-wide sensor readings and alarms. -/
theorem mem_equipment {t : List Char} {e : EquipmentStatus}
    (h : e ∈ extract_equipment_status t) :
    e.status ∈ valid_statuses ∧
    e.readings = extract_sensor_readings t e.equipment_id ∧
    e.active_alarms = extract_alarms t e.equipment_id := by
  unfold extract_equipment_status at h
  rw [List.mem_filterMap] at h
  obtain ⟨caps, _, hfn⟩ := h
  dsimp only at hfn
  by_cases hst : pyLower (pyStrip (String.mk (caps.getD 2 []))) ∈ valid_statuses
  · rw [if_pos hst] at hfn
    unfold validateEquipmentStatus at hfn
    split at hfn
    · have he := Option.some.inj hfn
      subst he
      exact ⟨hst, rfl, rfl⟩
    · cases hfn
  · rw [if_neg hst] at hfn
    cases hfn

/- ===================== Claims C3, C4, C5, C6, C10 ===================== -/

/-- C3: `_extract_field` tries the candidate patterns in fixed priority order
with the case-insensitive matcher; the first pattern whose search matches
wins (its first capture, stripped, is returned) and later patterns are not
consulted; the extraction of a field fails exactly when none of its patterns
matches; and when some required field has no matching pattern, the whole
parse fails with a missing-field error naming a required field none of whose
patterns matched (the first such field in extraction order) — no record is
returned. -/
theorem claim_C3_first_match_wins_and_missing_field_fatal :
    (∀ (t : List Char) (pat : List (List SP)) (pats : List (List (List SP)))
        (caps : List (List Char)) (rest : List Char),
        reSearch pat t = some (caps, rest) →
        extract_field t (pat :: pats) = some (pyStrip (String.mk (caps.getD 0 [])))) ∧
    (∀ (t : List Char) (pat : List (List SP)) (pats : List (List (List SP))),
        reSearch pat t = none → extract_field t (pat :: pats) = extract_field t pats) ∧
    (∀ (t : List Char) (pats : List (List (List SP))),
        extract_field t pats = none ↔ ∀ pat ∈ pats, reSearch pat t = none) ∧
    (∀ report : String,
        (∃ spec ∈ fieldSpecs, fieldMissing (pyStripL report.data) spec.2) →
        ∃ spec ∈ fieldSpecs, parse_scada_report report = .missingField spec.1 ∧
          fieldMissing (pyStripL report.data) spec.2) := by
  refine ⟨?_, ?_, extract_field_none_iff, ?_⟩
  · intro t pat pats caps rest h
    simp [extract_field, h]
  · intro t pat pats h
    simp [extract_field, h]
  · intro report ⟨spec, hspec, hmiss⟩
    rcases parse_cases report with ⟨_, hall⟩ | hfound
    · exact absurd hmiss (hall spec hspec)
    · exact hfound

/-- Witness for C3 on the P7 report (Shift field absent): the parse fails
with the missing-field error of a pattern-less field, which computes to
`shift`. -/
theorem claim_C3_witness :
    (∃ spec ∈ fieldSpecs, parse_scada_report p7text = .missingField spec.1 ∧
      fieldMissing (pyStripL p7text.data) spec.2) ∧
    parse_scada_report p7text = .missingField "shift" :=
  ⟨claim_C3_first_match_wins_and_missing_field_fatal.2.2.2 p7text
    ⟨("shift", shift_patterns),
      List.mem_cons_of_mem _ (List.mem_cons_self _ _), by decide⟩,
   by decide⟩

/-- C4 counterexample: on the P8 report (`Units Produced: -5` and every other
required field present) the extraction does not return a validation failure
naming `units_produced`; it returns the missing-field failure for
`units_produced`, because the minus sign prevents every `(\d+)` pattern from
matching. -/
theorem claim_C4_counterexample :
    extract_scada_metrics p8text = .missingField "units_produced" ∧
    ∀ fs : List String, extract_scada_metrics p8text ≠ .validationFailure fs := by
  have h0 : extract_scada_metrics p8text = .missingField "units_produced" := by decide
  exact ⟨h0, fun fs h => by rw [h0] at h; cases h⟩

/-- C4 amended: a negative numeric value such as `Units Produced: -5` never
reaches conversion or range validation — the digit-only capture groups fail
to match, so the P8 input yields `MissingField("units_produced")` and no
input ever yields a validation failure.  The validation path itself, were it
reached, would collect every offending required field in one pass (here both
negative counts are reported together). -/
theorem claim_C4_amended :
    extract_scada_metrics p8text = .missingField "units_produced" ∧
    (∀ (lid sh : String) (up ut : Int) (eff : ℚ) (equipment : List EquipmentStatus),
        up < 0 → ut < 0 →
        ∃ fs, validateProductionMetrics lid sh up ut eff equipment = .error fs ∧
          "units_produced" ∈ fs ∧ "units_target" ∈ fs) ∧
    (∀ (report : String) (fs : List String),
        extract_scada_metrics report ≠ .validationFailure fs) := by
  refine ⟨by decide, ?_, no_validation_failure⟩
  intro lid sh up ut eff equipment h1 h2
  have hup : "units_produced" ∈ pmErrors lid sh up ut eff := by
    simp [pmErrors, not_le.mpr h1, not_le.mpr h2]
  have hut : "units_target" ∈ pmErrors lid sh up ut eff := by
    simp [pmErrors, not_le.mpr h1, not_le.mpr h2]
  rcases hE : pmErrors lid sh up ut eff with _ | ⟨e, es⟩
  · rw [hE] at hup; cases hup
  · refine ⟨e :: es, ?_, hE ▸ hup, hE ▸ hut⟩
    unfold validateProductionMetrics
    rw [hE]

/-- Witness for C4's amended claim: the validation path collects both
negative counts in one error list. -/
theorem claim_C4_witness :
    ∃ fs, validateProductionMetrics "L1" "m" (-5) (-7) 90 [] = .error fs ∧
      "units_produced" ∈ fs ∧ "units_target" ∈ fs :=
  claim_C4_amended.2.1 "L1" "m" (-5) (-7) 90 [] (by norm_num) (by norm_num)

/-- C5: the sensor-reading and alarm sub-extractions scan the entire document
— their result does not depend on the equipment identifier they are passed —
and every equipment entry of a result carries exactly those document-wide
sensor and alarm lists. -/
theorem claim_C5_document_wide_subscan :
    (∀ (t : List Char) (id1 id2 : String),
        extract_sensor_readings t id1 = extract_sensor_readings t id2 ∧
        extract_alarms t id1 = extract_alarms t id2) ∧
    (∀ (t : List Char) (e : EquipmentStatus), e ∈ extract_equipment_status t →
        e.readings = extract_sensor_readings t e.equipment_id ∧
        e.active_alarms = extract_alarms t e.equipment_id) :=
  ⟨fun _ _ _ => ⟨rfl, rfl⟩, fun _ _ h => ⟨(mem_equipment h).2.1, (mem_equipment h).2.2⟩⟩

/-- Witness for C5 on a concrete report whose equipment entry picks up the
document-wide sensor reading and alarm. -/
theorem claim_C5_witness :
    c5equip.readings = extract_sensor_readings c5text.data c5equip.equipment_id ∧
    c5equip.active_alarms = extract_alarms c5text.data c5equip.equipment_id :=
  claim_C5_document_wide_subscan.2 c5text.data c5equip (by
    rw [show extract_equipment_status c5text.data = [c5equip] from by decide]
    exact List.mem_cons_self _ _)

/-- C6: an equipment block whose status keyword is unrecognized is silently
dropped — every entry of any result has a recognized status — and the overall
extraction still succeeds: on the P9 report (P6 plus an `(unknown)` block)
the call returns the same success record, with that entry absent. -/
theorem claim_C6_invalid_subentity_dropped :
    (∀ (t : List Char) (e : EquipmentStatus), e ∈ extract_equipment_status t →
        e.status ∈ valid_statuses) ∧
    extract_scada_metrics p9text = .ok p6record := by
  exact ⟨fun _ _ h => (mem_equipment h).1, by decide⟩

/-- Witness for C6 on a concrete report with a recognized-status entry. -/
theorem claim_C6_witness : c5equip.status ∈ valid_statuses :=
  claim_C6_invalid_subentity_dropped.1 c5text.data c5equip (by
    rw [show extract_equipment_status c5text.data = [c5equip] from by decide]
    exact List.mem_cons_self _ _)

/-- C10: the numeric captures are digit-only, so the conversions inside the
required-field extraction never fail and never produce a negative value, the
nonnegativity validation is unreachable, and every extraction outcome is
empty-input, a missing field, or success. -/
theorem claim_C10_numeric_conversions_total (report : String) :
    ((extract_scada_metrics report = .emptyInput) ∨
     (∃ f, extract_scada_metrics report = .missingField f) ∨
     (∃ m, extract_scada_metrics report = .ok m)) ∧
    (∀ s, extract_field (pyStripL report.data) units_produced_patterns = some s →
        ∃ k : Int, pyInt s = some k ∧ 0 ≤ k) ∧
    (∀ s, extract_field (pyStripL report.data) units_target_patterns = some s →
        ∃ k : Int, pyInt s = some k ∧ 0 ≤ k) ∧
    (∀ s, extract_field (pyStripL report.data) efficiency_patterns = some s →
        ∃ q : ℚ, pyFloat s = some q ∧ 0 ≤ q) := by
  refine ⟨?_, fun s h => up_field_int h, fun s h => ut_field_int h, fun s h => eff_field_float h⟩
  unfold extract_scada_metrics
  split
  · exact Or.inl rfl
  · rcases parse_cases report with ⟨⟨m, hok⟩, _⟩ | ⟨spec, _, hmiss, _⟩
    · exact Or.inr (Or.inr ⟨m, hok⟩)
    · exact Or.inr (Or.inl ⟨spec.1, hmiss⟩)

/-- Witness for C10 on the P6 report: the captured `450` converts to the
nonnegative integer and the captured `90` to the nonnegative rational. -/
theorem claim_C10_witness :
    (∃ k : Int, pyInt "450" = some k ∧ 0 ≤ k) ∧
    (∃ q : ℚ, pyFloat "90" = some q ∧ 0 ≤ q) :=
  ⟨(claim_C10_numeric_conversions_total p6text).2.1 "450" (by decide),
   (claim_C10_numeric_conversions_total p6text).2.2.2 "90" (by decide)⟩

end EdgeAgents
